import Mathlib

/-!
Shallow embedding of the core concurrency and indexing infrastructure of the
avalanchego node: per-peer outbound message queues (network/peer/message_queue.go),
the bounded worker pool prototypes (utils/thread_pool.go and the router variants),
the persistent block-height index (package blockheightindex), and the resumable
height-index repair engine (package indexer), together with the proposervm's
updateHeightIndex hook.

Machine integers are modelled as Nat (heights, byte values); block IDs are
modelled as Nat with ids.Empty as 0.  Fallible calls return sum types mirroring
the Go error sentinels (database.ErrNotFound vs other errors).  Loops that walk
an externally supplied chain are modelled with explicit fuel.
-/

/-- Errors surfaced by the database / block server.  `dbNotFound` mirrors
database.ErrNotFound being returned as a non-nil error; `io e` is any other
storage or fetch error. -/
inductive RunErr where
  | dbNotFound
  | io (e : Nat)
deriving DecidableEq, Repr

/- ### Throttled message queue (network/peer/message_queue.go, throttledMessageQueue)

State of `throttledMessageQueue` plus the event counters the spec reasons
about: the number of successful `outboundMsgThrottler.Acquire` calls, the
number of `Release` calls, and the `SendFailed` metric.  Messages are
identified by a Nat payload stand-in. -/
structure TQState where
  closed : Bool
  queue : List Nat
  acquired : Nat
  released : Nat
  sendFailed : Nat
deriving DecidableEq, Repr

/-- Initial state of a freshly constructed throttled queue. -/
def tqInit : TQState :=
  { closed := false, queue := [], acquired := 0, released := 0, sendFailed := 0 }

/-- throttledMessageQueue.Push.  `adm` is the outcome of
`outboundMsgThrottler.Acquire(msg, q.id)`: on failure the message is dropped
and SendFailed counted; on success, if the queue is already closed the
reservation is released immediately and the message dropped, otherwise the
message is appended. -/
def tqPush (s : TQState) (m : Nat) (adm : Bool) : TQState × Bool :=
  if !adm then
    ({ s with sendFailed := s.sendFailed + 1 }, false)
  else
    let s1 := { s with acquired := s.acquired + 1 }
    if s1.closed then
      ({ s1 with released := s1.released + 1, sendFailed := s1.sendFailed + 1 }, false)
    else
      ({ s1 with queue := s1.queue ++ [m] }, true)

/-- throttledMessageQueue.Pop.  The source loop checks `closed` first and then
waits on the condition variable until the queue is non-empty; a Pop that would
block forever (open, empty queue) has no completed effect in a finite trace and
is modelled as the identity. -/
def tqPop (s : TQState) : TQState × Option Nat :=
  if s.closed then (s, none)
  else
    match s.queue with
    | [] => (s, none)
    | m :: rest => ({ s with queue := rest, released := s.released + 1 }, some m)

/-- throttledMessageQueue.PopWithoutBlocking: non-blocking, releases on
success; only the emptiness of the queue is checked. -/
def tqPopNoBlock (s : TQState) : TQState × Option Nat :=
  match s.queue with
  | [] => (s, none)
  | m :: rest => ({ s with queue := rest, released := s.released + 1 }, some m)

/-- throttledMessageQueue.Close: sets closed, releases quota for every queued
message counting each as SendFailed, and empties the queue. -/
def tqClose (s : TQState) : TQState :=
  { s with closed := true,
           released := s.released + s.queue.length,
           sendFailed := s.sendFailed + s.queue.length,
           queue := [] }

/-- A completed operation on the throttled queue.  `push m adm` carries the
throttler's admission decision for that call. -/
inductive TQOp where
  | push (m : Nat) (adm : Bool)
  | pop
  | popNoBlock
  | close
deriving DecidableEq, Repr

/-- One completed operation as a state transition. -/
def tqStep (s : TQState) : TQOp → TQState
  | .push m adm => (tqPush s m adm).1
  | .pop => (tqPop s).1
  | .popNoBlock => (tqPopNoBlock s).1
  | .close => tqClose s

/-- Run a finite sequence of completed operations. -/
def tqRun (s : TQState) : List TQOp → TQState
  | [] => s
  | op :: rest => tqRun (tqStep s op) rest

/-- The quota-accounting invariant of the throttled queue: every successful
Acquire is either already Released or belongs to a message still queued, and a
closed queue holds no messages. -/
def tqInv (s : TQState) : Prop :=
  s.acquired = s.released + s.queue.length ∧ (s.closed = true → s.queue = [])

/- ### Blocking message queue (network/peer/message_queue.go, blockingMessageQueue) -/

/-- Which branch of `Push`'s second select fired: the channel send succeeded,
the caller's context was cancelled, or the closing signal triggered. -/
inductive PushEvent where
  | room
  | ctxDone
  | closing
deriving DecidableEq, Repr

/-- State of `blockingMessageQueue`: whether the closing channel has been
closed, the buffered channel contents, its capacity, and the SendFailed
counter. -/
structure BQState where
  closingDone : Bool
  buf : List Nat
  bufSize : Nat
  sendFailed : Nat
deriving DecidableEq, Repr

/-- blockingMessageQueue.Push.  The first select drops and counts if closing
already triggered; otherwise the resolved branch `ev` of the second select
decides between enqueue (return true), context cancellation, and closing
(both: drop, count, return false). -/
def bqPush (s : BQState) (m : Nat) (ev : PushEvent) : BQState × Bool :=
  if s.closingDone then
    ({ s with sendFailed := s.sendFailed + 1 }, false)
  else
    match ev with
    | .room => ({ s with buf := s.buf ++ [m] }, true)
    | .ctxDone => ({ s with sendFailed := s.sendFailed + 1 }, false)
    | .closing => ({ s with sendFailed := s.sendFailed + 1 }, false)

/- ### Worker pool (utils/thread_pool.go lines 93-101 and the identical
src/unnamed/part_001 ThreadPool.releaseWorker) -/

/-- State of the pool fields releaseWorker touches: the clamped active-worker
counter (an int in Go, clamped at 0), and len/cap of the buffered signal
channel. -/
structure TPState where
  size : Nat
  activeWorkers : Int
  sigLen : Nat
  sigCap : Nat
deriving DecidableEq, Repr

/-- ThreadPool.decrementWorkers: decrement, clamping at zero. -/
def decrementWorkers (t : TPState) : TPState :=
  let a := t.activeWorkers - 1
  { t with activeWorkers := if a < 0 then 0 else a }

/-- ThreadPool.releaseWorker: decrement the active count, then send one signal
on the free-worker channel unless the channel buffer is already full
("dont signal if the buffer is full").  The second component is the number of
signals emitted by this call. -/
def releaseWorker (t : TPState) : TPState × Nat :=
  let t1 := decrementWorkers t
  if t1.sigLen ≠ t1.sigCap then ({ t1 with sigLen := t1.sigLen + 1 }, 1)
  else (t1, 0)

/- ### Persistence key layout (package blockheightindex, GetEntryKey /
GetForkKey / GetCheckpointKey) -/

/-- Bytes of an ASCII string literal, as Go's []byte(s). -/
def strBytes (s : String) : List Nat :=
  s.data.map Char.toNat

/-- The package-level `heightPrefix = []byte("heightkey")`. -/
def heightKeyBytes : List Nat := strBytes "heightkey"

/-- binary.BigEndian.PutUint64: the 8 big-endian bytes of a uint64. -/
def putUint64BE (h : Nat) : List Nat :=
  [h / 2 ^ 56 % 256, h / 2 ^ 48 % 256, h / 2 ^ 40 % 256, h / 2 ^ 32 % 256,
   h / 2 ^ 24 % 256, h / 2 ^ 16 % 256, h / 2 ^ 8 % 256, h % 256]

/-- GetEntryKey(height): copy of heightPrefix followed by the big-endian
height bytes. -/
def GetEntryKey (h : Nat) : List Nat :=
  heightKeyBytes ++ putUint64BE h

/-- GetForkKey(): []byte("preForkKey"). -/
def GetForkKey : List Nat := strBytes "preForkKey"

/-- GetCheckpointKey(): []byte("checkpoint"). -/
def GetCheckpointKey : List Nat := strBytes "checkpoint"

/-- Big-endian reconstruction: fold the byte list back into the integer it
encodes. -/
def beFold (l : List Nat) : Nat :=
  l.foldl (fun a b => a * 256 + b) 0

/- ### The persistent index with its LRU cache (package blockheightindex,
type index).  Database values are modelled as the IDs they decode to, keys as
their byte strings. -/

/-- Result of a database read: the value, or the database.ErrNotFound
sentinel.  The in-memory store model never fails with other I/O errors, so the
source's `default:` error branches are unreachable here. -/
inductive DbRead (α : Type) where
  | ok (v : α)
  | notFound
deriving DecidableEq, Repr

/-- Lookup in an association list keyed by byte strings (the Go map inside
cache.LRU, keyed by string(key)). -/
def assocFind (k : List Nat) : List (List Nat × Nat) → Option Nat
  | [] => none
  | e :: rest => if e.1 = k then some e.2 else assocFind k rest

/-- Remove a key from an association list. -/
def assocRemove (k : List Nat) : List (List Nat × Nat) → List (List Nat × Nat)
  | [] => []
  | e :: rest => if e.1 = k then assocRemove k rest else e :: assocRemove k rest

/-- cache.LRU with bounded capacity: most recently used entry first. -/
structure LRUCache where
  capacity : Nat
  entries : List (List Nat × Nat)
deriving DecidableEq, Repr

/-- LRU Get. -/
def lruGet (c : LRUCache) (k : List Nat) : Option Nat :=
  assocFind k c.entries

/-- LRU Put: insert at the front, dropping any previous binding and evicting
beyond capacity. -/
def lruPut (c : LRUCache) (k : List Nat) (v : Nat) : LRUCache :=
  { c with entries := ((k, v) :: assocRemove k c.entries).take c.capacity }

/-- LRU Evict. -/
def lruEvict (c : LRUCache) (k : List Nat) : LRUCache :=
  { c with entries := assocRemove k c.entries }

/-- The blockheightindex index: LRU cache over a durable key-value store.
The `Lock sync.RWMutex` field declared in the source is never locked by any
method of the package and has no semantic content here. -/
structure HIndex where
  cache : LRUCache
  db : List Nat → Option Nat

/-- index.GetBlockIDAtHeight: consult the cache first; on a cache miss read
the database and populate the cache on success.  Returns the possibly updated
index together with the read result. -/
def GetBlockIDAtHeight (hi : HIndex) (height : Nat) : HIndex × DbRead Nat :=
  let key := GetEntryKey height
  match lruGet hi.cache key with
  | some v => (hi, .ok v)
  | none =>
    match hi.db key with
    | some v => ({ hi with cache := lruPut hi.cache key v }, .ok v)
    | none => (hi, .notFound)

/-- index.SetBlockIDAtHeight: the cache is updated first, then the database
put runs; `putOk` is the outcome of `hi.db.Put`.  On failure the error is
returned after the cache was already updated. -/
def SetBlockIDAtHeight (hi : HIndex) (height blkID : Nat) (putOk : Bool) :
    HIndex × Option RunErr :=
  let key := GetEntryKey height
  let hi1 := { hi with cache := lruPut hi.cache key blkID }
  if putOk then
    ({ hi1 with db := fun k => if k = key then some blkID else hi1.db k }, none)
  else
    (hi1, some (.io 0))

/- ### Height-index repair engine (package indexer, heightIndexer) and the
proposervm updateHeightIndex hook.

The repairer reads and writes the store through heightIndexDBOps
(GetBlockIDAtHeight / GetCheckpoint / NewBatch); the underlying in-memory
store is a map over the three key families. -/

/-- Block IDs; ids.Empty is 0. -/
abbrev BlkID := Nat

/-- The narrow view of a snowman.Block the repairer consumes: ID(), Height(),
Parent(). -/
structure Blk where
  id : BlkID
  height : Nat
  parentID : BlkID
deriving DecidableEq, Repr

/-- The three key families of the height index database. -/
inductive HKey where
  | checkpointK
  | entryK (h : Nat)
  | forkK
deriving DecidableEq, Repr

/-- The committed database contents. -/
abbrev Store := HKey → Option Nat

/-- A staged batch operation. -/
inductive BatchOp where
  | putOp (k : HKey) (v : Nat)
  | delOp (k : HKey)
deriving DecidableEq, Repr

/-- Apply one batch operation to the store. -/
def applyOp (s : Store) : BatchOp → Store
  | .putOp k v => fun k2 => if k2 = k then some v else s k2
  | .delOp k => fun k2 => if k2 = k then none else s k2

/-- batch.Write: apply the staged operations in order. -/
def commitBatch (b : List BatchOp) (s : Store) : Store :=
  b.foldl applyOp s

/-- Byte length of a key (heightkey ‖ uint64 = 17 bytes, the two scalar keys
are 10 bytes), used for the batch size accounting. -/
def keyLen : HKey → Nat
  | .checkpointK => 10
  | .entryK _ => 17
  | .forkK => 10

/-- Size contribution of a staged operation (values are 32-byte block IDs). -/
def opSize : BatchOp → Nat
  | .putOp k _ => keyLen k + 32
  | .delOp k => keyLen k

/-- batch.Size(). -/
def batchSize (b : List BatchOp) : Nat :=
  (b.map opSize).sum

/-- Read a key from the committed store, with the database.ErrNotFound
sentinel for absent keys. -/
def readStore (s : Store) (k : HKey) : DbRead Nat :=
  match s k with
  | some v => .ok v
  | none => .notFound

/-- Result of BlockServer.GetBlk: a block, database.ErrNotFound, or another
error. -/
inductive GetBlkRes where
  | ok (b : Blk)
  | notFound
  | err (e : Nat)
deriving DecidableEq, Repr

/-- The BlockServer capability the repairer consumes. -/
structure BlockServer where
  lastAcceptedBlkID : BlkID
  getBlk : BlkID → GetBlkRes

/-- State of a heightIndexer run: the committed store, the write batch, and
the atomically readable jobDone flag. -/
structure RepairerState where
  store : Store
  batch : List BatchOp
  jobDone : Bool

/-- heightIndexer.IsRepaired. -/
def IsRepaired (st : RepairerState) : Bool :=
  st.jobDone

/-- heightIndexer.shouldRepair: probe the checkpoint; when absent check
whether the last accepted block is indexed; when it is, flip jobDone; when it
is not, stage `checkpoint = lastAcceptedBlkID` into the batch and report the
repair start point.  A failing GetBlk on the last accepted block (including
NotFound) is returned as an error with ids.Empty. -/
def shouldRepair (srv : BlockServer) (st : RepairerState) :
    RepairerState × (Bool × BlkID × Option RunErr) :=
  match readStore st.store .checkpointK with
  | .ok checkpointID => (st, (true, checkpointID, none))
  | .notFound =>
    let latestBlkID := srv.lastAcceptedBlkID
    match srv.getBlk latestBlkID with
    | .notFound => (st, (true, 0, some .dbNotFound))
    | .err e => (st, (true, 0, some (.io e)))
    | .ok lastAcceptedBlk =>
      match readStore st.store (.entryK lastAcceptedBlk.height) with
      | .ok _ => ({ st with jobDone := true }, (false, 0, none))
      | .notFound =>
        ({ st with batch := st.batch ++ [.putOp .checkpointK latestBlkID] },
         (true, latestBlkID, none))

/-- heightIndexer.doCheckpoint: stage `checkpoint = parent(currentBlk)` when
the parent exists; when the parent is genesis-before (NotFound) do nothing and
let the caller terminate. -/
def doCheckpoint (srv : BlockServer) (st : RepairerState) (currentBlk : Blk) :
    RepairerState × Option RunErr :=
  match srv.getBlk currentBlk.parentID with
  | .ok checkpointBlk =>
    ({ st with batch := st.batch ++ [.putOp .checkpointK checkpointBlk.id] }, none)
  | .notFound => (st, none)
  | .err e => (st, some (.io e))

/-- heightIndexer.doRepair, with explicit fuel for the backward walk; `none`
means the loop did not terminate within the given fuel.  In the branch where
the current height already has an index entry the source only fires
`log.AssertTrue(err != nil, ...)` (whose condition is identically false there)
and then re-enters the loop with the cursor unchanged. -/
def doRepair (srv : BlockServer) (commitMaxSize : Nat) :
    Nat → RepairerState → BlkID → Option (RepairerState × Option RunErr)
  | 0, _, _ => none
  | fuel + 1, st, currentBlkID =>
    match srv.getBlk currentBlkID with
    | .err e => some (st, some (.io e))
    | .notFound =>
      some ({ st with batch := st.batch ++ [.delOp .checkpointK], jobDone := true }, none)
    | .ok currentAcceptedBlk =>
      match readStore st.store (.entryK currentAcceptedBlk.height) with
      | .ok _ =>
        doRepair srv commitMaxSize fuel st currentBlkID
      | .notFound =>
        let st1 := { st with
          batch := st.batch ++ [.putOp (.entryK currentAcceptedBlk.height) currentBlkID] }
        if batchSize st1.batch > commitMaxSize then
          match doCheckpoint srv st1 currentAcceptedBlk with
          | (st2, some e) => some (st2, some e)
          | (st2, none) =>
            let st3 := { st2 with store := commitBatch st2.batch st2.store, batch := [] }
            doRepair srv commitMaxSize fuel st3 currentAcceptedBlk.parentID
        else
          doRepair srv commitMaxSize fuel st1 currentAcceptedBlk.parentID

/-- heightIndexer.RepairHeightIndex: run the probe, commit the batch (the
source does not reset it here), return early when no repair is needed,
otherwise walk backward and commit the final batch. -/
def RepairHeightIndex (srv : BlockServer) (commitMaxSize fuel : Nat)
    (st : RepairerState) : Option (RepairerState × Option RunErr) :=
  match shouldRepair srv st with
  | (st1, (_, _, some e)) => some (st1, some e)
  | (st1, (needRepair, startBlkID, none)) =>
    let st2 := { st1 with store := commitBatch st1.batch st1.store }
    if !needRepair then some (st2, none)
    else
      match doRepair srv commitMaxSize fuel st2 startBlkID with
      | none => none
      | some (st3, some e) => some (st3, some e)
      | some (st3, none) =>
        some ({ st3 with store := commitBatch st3.batch st3.store }, none)

/- ### proposervm VM.updateHeightIndex (height_indexed_vm.go) -/

/-- The slice of proposervm VM state updateHeightIndex touches: the State's
checkpoint and fork-height scalars, the height entries, and the repairer's
done flag. -/
structure VMState where
  checkpoint : Option BlkID
  forkHeight : Option Nat
  entries : Nat → Option BlkID
  repaired : Bool

/-- VM.storeHeightEntry: read the fork height (an absent fork height surfaces
as database.ErrNotFound and aborts), lower it when the new block is below it,
then write the height entry and commit. -/
def storeHeightEntry (vm : VMState) (height : Nat) (blkID : BlkID) :
    VMState × Option RunErr :=
  match vm.forkHeight with
  | none => (vm, some .dbNotFound)
  | some forkHeight =>
    let vm1 := if forkHeight > height then { vm with forkHeight := some height } else vm
    ({ vm1 with entries := fun h => if h = height then some blkID else vm1.entries h },
     none)

/-- VM.updateHeightIndex: write immediately when a checkpoint exists and the
accepted block is not the checkpoint block, or when no checkpoint exists and
repair is already done; otherwise do nothing (the repairer will index this
height). -/
def updateHeightIndex (vm : VMState) (height : Nat) (blkID : BlkID) :
    VMState × Option RunErr :=
  match vm.checkpoint with
  | some checkpoint =>
    if blkID ≠ checkpoint then storeHeightEntry vm height blkID
    else (vm, none)
  | none =>
    if vm.repaired then storeHeightEntry vm height blkID
    else (vm, none)

/-! ## Theorems -/

/-- Committing a batch whose last operation deletes key `k` leaves `k` absent,
whatever the earlier operations staged. -/
theorem commit_append_del (b : List BatchOp) (s : Store) (k : HKey) :
    commitBatch (b ++ [.delOp k]) s k = none := by
  simp [commitBatch, List.foldl_append, applyOp]

/-- C9: the height entry key is the bytes of "heightkey" followed by the
8-byte big-endian encoding of the height (17 bytes total, and the bytes
really are the big-endian encoding: folding them back yields the height);
the fork-height key is the bytes of "preForkKey" and the checkpoint key the
bytes of "checkpoint". -/
theorem key_layout_spec (h : Nat) :
    GetEntryKey h = strBytes "heightkey" ++ putUint64BE h
    ∧ (putUint64BE h).length = 8
    ∧ (GetEntryKey h).length = 17
    ∧ (h < 2 ^ 64 → beFold (putUint64BE h) = h)
    ∧ GetForkKey = strBytes "preForkKey"
    ∧ GetCheckpointKey = strBytes "checkpoint" := by
  refine ⟨rfl, rfl, ?_, ?_, rfl, rfl⟩
  · simp [GetEntryKey, heightKeyBytes, strBytes, putUint64BE]
  · intro hlt
    simp only [beFold, putUint64BE, List.foldl]
    norm_num
    omega

/-- Closed instance of the C9 layout theorem at height 300. -/
theorem key_layout_spec_instance :
    beFold (putUint64BE 300) = 300 ∧ (GetEntryKey 300).length = 17 :=
  ⟨(key_layout_spec 300).2.2.2.1 (by norm_num), (key_layout_spec 300).2.2.1⟩

/-- C7 (counterexample): a releaseWorker call made while the free-signal
channel is already at capacity emits no signal, refuting "one releaseWorker
call per request emits exactly one signal". -/
theorem releaseWorker_full_channel_cex :
    (releaseWorker ⟨4, 4, 4, 4⟩).2 = 0 ∧ (releaseWorker ⟨4, 4, 4, 4⟩).2 ≠ 1 := by
  decide

/-- C7 (amended): releaseWorker decrements the active counter (clamped at
zero) and emits exactly one free-worker signal when the signal channel is
below capacity, and none when the channel is full. -/
theorem releaseWorker_signal_spec (t : TPState) :
    (releaseWorker t).2 = (if t.sigLen = t.sigCap then 0 else 1)
    ∧ (releaseWorker t).1.sigLen = (if t.sigLen = t.sigCap then t.sigLen else t.sigLen + 1)
    ∧ (releaseWorker t).1.activeWorkers =
        (if t.activeWorkers - 1 < 0 then 0 else t.activeWorkers - 1) := by
  unfold releaseWorker decrementWorkers
  by_cases hc : t.sigLen = t.sigCap <;> simp [hc]

/-- C8: blocking Push drops with one SendFailed increment and returns false
when the closing signal already triggered; otherwise it returns true exactly
when the message was placed in the channel, and in the cancellation and
closing branches it returns false with one SendFailed increment and no
enqueue. -/
theorem blocking_push_spec (s : BQState) (m : Nat) (ev : PushEvent) :
    (s.closingDone = true →
      bqPush s m ev = ({ s with sendFailed := s.sendFailed + 1 }, false))
    ∧ ((bqPush s m ev).2 = true ↔ s.closingDone = false ∧ ev = .room)
    ∧ ((bqPush s m ev).2 = true →
        (bqPush s m ev).1 = { s with buf := s.buf ++ [m] })
    ∧ ((bqPush s m ev).2 = false →
        (bqPush s m ev).1 = { s with sendFailed := s.sendFailed + 1 }) := by
  unfold bqPush
  cases hc : s.closingDone <;> cases ev <;> simp

/-- Closed instance of the C8 theorem: a Push after closing triggered. -/
theorem blocking_push_spec_instance :
    bqPush ⟨true, [], 4, 0⟩ 5 .room
      = ({ closingDone := true, buf := [], bufSize := 4, sendFailed := 1 }, false) :=
  (blocking_push_spec ⟨true, [], 4, 0⟩ 5 .room).1 rfl

/-- C6 (counterexample): on an empty index, a SetBlockIDAtHeight whose
database put fails leaves the new id in the cache, so the next
GetBlockIDAtHeight returns it even though the durable store still has no
value for that height — refuting "a subsequent GetBlockIDAtHeight(h) does not
return id". -/
theorem set_failed_put_cache_visible_cex :
    (GetBlockIDAtHeight (SetBlockIDAtHeight ⟨⟨8192, []⟩, fun _ => none⟩ 0 7 false).1 0).2
        = DbRead.ok 7
    ∧ (SetBlockIDAtHeight ⟨⟨8192, []⟩, fun _ => none⟩ 0 7 false).1.db (GetEntryKey 0)
        = none := by
  constructor <;> rfl

/-- C6 (amended): SetBlockIDAtHeight updates the cache before the database
put; when the put fails the error is returned, the durable store is unchanged,
and a subsequent GetBlockIDAtHeight returns the new id from the cache — the
cache and the durable store disagree. -/
theorem set_failed_put_cache_visible (hi : HIndex) (h blkID : Nat)
    (hcap : 0 < hi.cache.capacity) :
    (SetBlockIDAtHeight hi h blkID false).2 = some (RunErr.io 0)
    ∧ (SetBlockIDAtHeight hi h blkID false).1.db = hi.db
    ∧ (GetBlockIDAtHeight (SetBlockIDAtHeight hi h blkID false).1 h).2 = .ok blkID := by
  refine ⟨rfl, rfl, ?_⟩
  unfold SetBlockIDAtHeight GetBlockIDAtHeight lruGet lruPut
  cases hc : hi.cache.capacity with
  | zero => omega
  | succ n => simp [assocFind]

/-- Closed instance of the amended C6 theorem. -/
theorem set_failed_put_cache_visible_instance :
    (GetBlockIDAtHeight (SetBlockIDAtHeight ⟨⟨1, []⟩, fun _ => none⟩ 2 9 false).1 2).2
      = DbRead.ok 9 :=
  (set_failed_put_cache_visible ⟨⟨1, []⟩, fun _ => none⟩ 2 9 (by decide)).2.2

/-- C4: updateHeightIndex writes the entry immediately when a checkpoint
exists and the accepted block is not the checkpoint block, or when no
checkpoint exists and the repairer is done; in the two remaining non-error
cases it is a no-op returning nil. -/
theorem updateHeightIndex_spec (vm : VMState) (height : Nat) (blkID : BlkID) :
    (∀ cp f, vm.checkpoint = some cp → blkID ≠ cp → vm.forkHeight = some f →
      (updateHeightIndex vm height blkID).2 = none
      ∧ (updateHeightIndex vm height blkID).1.entries height = some blkID)
    ∧ (∀ f, vm.checkpoint = none → vm.repaired = true → vm.forkHeight = some f →
      (updateHeightIndex vm height blkID).2 = none
      ∧ (updateHeightIndex vm height blkID).1.entries height = some blkID)
    ∧ (∀ cp, vm.checkpoint = some cp → blkID = cp →
      updateHeightIndex vm height blkID = (vm, none))
    ∧ (vm.checkpoint = none → vm.repaired = false →
      updateHeightIndex vm height blkID = (vm, none)) := by
  refine ⟨?_, ?_, ?_, ?_⟩
  · intro cp f hcp hne hf
    simp [updateHeightIndex, storeHeightEntry, hcp, hne, hf]
  · intro f hcp hrep hf
    simp [updateHeightIndex, storeHeightEntry, hcp, hrep, hf]
  · intro cp hcp heq
    simp [updateHeightIndex, hcp, heq]
  · intro hcp hrep
    simp [updateHeightIndex, hcp, hrep]

/-- Closed instance of the C4 theorem: live update during repair for a block
that is not the checkpoint block. -/
theorem updateHeightIndex_spec_instance :
    (updateHeightIndex ⟨some 5, some 0, fun _ => none, false⟩ 3 7).2 = none
    ∧ (updateHeightIndex ⟨some 5, some 0, fun _ => none, false⟩ 3 7).1.entries 3 = some 7 :=
  (updateHeightIndex_spec ⟨some 5, some 0, fun _ => none, false⟩ 3 7).1 5 0 rfl
    (by decide) rfl

/-- C1: the should-repair probe.  If GetCheckpoint finds a checkpoint, repair
resumes there; if no checkpoint exists and the last accepted height is
indexed, the done flag is set and no repair is reported; otherwise
`checkpoint = lastAcceptedBlkID` is staged into the batch and repair starts at
lastAcceptedBlkID. -/
theorem shouldRepair_probe_spec (srv : BlockServer) (st : RepairerState) :
    (∀ cp, readStore st.store .checkpointK = .ok cp →
      shouldRepair srv st = (st, (true, cp, none)))
    ∧ (∀ blk e, readStore st.store .checkpointK = .notFound →
        srv.getBlk srv.lastAcceptedBlkID = .ok blk →
        readStore st.store (.entryK blk.height) = .ok e →
        shouldRepair srv st = ({ st with jobDone := true }, (false, 0, none))
        ∧ IsRepaired (shouldRepair srv st).1 = true)
    ∧ (∀ blk, readStore st.store .checkpointK = .notFound →
        srv.getBlk srv.lastAcceptedBlkID = .ok blk →
        readStore st.store (.entryK blk.height) = .notFound →
        shouldRepair srv st =
          ({ st with batch := st.batch ++ [.putOp .checkpointK srv.lastAcceptedBlkID] },
           (true, srv.lastAcceptedBlkID, none))) := by
  refine ⟨?_, ?_, ?_⟩
  · intro cp hcp
    simp [shouldRepair, hcp]
  · intro blk e hcp hblk hentry
    simp [shouldRepair, IsRepaired, hcp, hblk, hentry]
  · intro blk hcp hblk hentry
    simp [shouldRepair, hcp, hblk, hentry]

/-- Closed instance of the C1 theorem: a stored checkpoint is returned as the
resume point. -/
theorem shouldRepair_probe_spec_instance :
    shouldRepair ⟨9, fun _ => GetBlkRes.notFound⟩
        ⟨fun k => if k = HKey.checkpointK then some 5 else none, [], false⟩
      = (⟨fun k => if k = HKey.checkpointK then some 5 else none, [], false⟩,
         (true, 5, none)) :=
  (shouldRepair_probe_spec ⟨9, fun _ => GetBlkRes.notFound⟩
    ⟨fun k => if k = HKey.checkpointK then some 5 else none, [], false⟩).1 5 rfl

/-- C2: when GetBlk reports NotFound for the cursor (genesis has been passed),
doRepair stages a deletion of the checkpoint key, flips the done flag, and
returns nil; after RepairHeightIndex commits the final batch, GetCheckpoint
returns NotFound and IsRepaired returns true. -/
theorem doRepair_genesis_termination (srv : BlockServer) (cms fuel : Nat)
    (st : RepairerState) (c : BlkID)
    (hget : srv.getBlk c = .notFound) :
    doRepair srv cms (fuel + 1) st c
      = some ({ st with batch := st.batch ++ [.delOp .checkpointK], jobDone := true }, none)
    ∧ readStore (commitBatch (st.batch ++ [.delOp .checkpointK]) st.store) .checkpointK
        = .notFound
    ∧ (st.store .checkpointK = some c →
        (RepairHeightIndex srv cms (fuel + 1) st).map
            (fun p => (IsRepaired p.1, readStore p.1.store .checkpointK, p.2))
          = some (true, .notFound, none)) := by
  refine ⟨?_, ?_, ?_⟩
  · simp [doRepair, hget]
  · simp [readStore, commit_append_del]
  · intro hcp
    simp [RepairHeightIndex, shouldRepair, readStore, hcp, doRepair, hget, IsRepaired,
      commit_append_del]

/-- Closed instance of the C2 theorem: resuming at a stored checkpoint whose
block is already gone past genesis completes the repair and clears the
checkpoint. -/
theorem doRepair_genesis_termination_instance :
    (RepairHeightIndex ⟨9, fun _ => GetBlkRes.notFound⟩ 1048576 1
        ⟨fun k => if k = HKey.checkpointK then some 5 else none, [], false⟩).map
        (fun p => (IsRepaired p.1, readStore p.1.store HKey.checkpointK, p.2))
      = some (true, DbRead.notFound, none) :=
  (doRepair_genesis_termination ⟨9, fun _ => GetBlkRes.notFound⟩ 1048576 0
    ⟨fun k => if k = HKey.checkpointK then some 5 else none, [], false⟩ 5 rfl).2.2 rfl

/-- C10: doRepair flips the done flag inside its NotFound branch while the
checkpoint deletion is only staged in the batch; until the batch is committed
IsRepaired already returns true while GetCheckpoint still returns the
previously committed checkpoint, and only the commit removes it. -/
theorem repair_window_stale_checkpoint (srv : BlockServer) (cms fuel : Nat)
    (st : RepairerState) (c : BlkID) (cp : Nat)
    (hget : srv.getBlk c = .notFound) (hcp : st.store .checkpointK = some cp) :
    doRepair srv cms (fuel + 1) st c
      = some ({ st with batch := st.batch ++ [.delOp .checkpointK], jobDone := true }, none)
    ∧ IsRepaired { st with batch := st.batch ++ [.delOp .checkpointK], jobDone := true }
        = true
    ∧ readStore st.store .checkpointK = .ok cp
    ∧ readStore (commitBatch (st.batch ++ [.delOp .checkpointK]) st.store) .checkpointK
        = .notFound := by
  refine ⟨?_, rfl, ?_, ?_⟩
  · simp [doRepair, hget]
  · simp [readStore, hcp]
  · simp [readStore, commit_append_del]

/-- Closed instance of the C10 theorem. -/
theorem repair_window_stale_checkpoint_instance :
    IsRepaired { store := fun k => if k = HKey.checkpointK then (some 5 : Option Nat) else none,
                 batch := ([] : List BatchOp) ++ [.delOp .checkpointK], jobDone := true }
      = true
    ∧ readStore (fun k => if k = HKey.checkpointK then some 5 else none) HKey.checkpointK
        = DbRead.ok 5 :=
  ⟨(repair_window_stale_checkpoint ⟨9, fun _ => GetBlkRes.notFound⟩ 1048576 0
      ⟨fun k => if k = HKey.checkpointK then some 5 else none, [], false⟩ 5 5 rfl rfl).2.1,
   (repair_window_stale_checkpoint ⟨9, fun _ => GetBlkRes.notFound⟩ 1048576 0
      ⟨fun k => if k = HKey.checkpointK then some 5 else none, [], false⟩ 5 5 rfl rfl).2.2.1⟩

/-- C3 (code evaluated at the failing input): when the current block's height
already has an index entry, doRepair only fires the always-false assertion
`AssertTrue(err != nil, ...)` and re-enters the loop with the cursor
unchanged: the walk stages nothing further and never terminates, for any
amount of fuel. -/
theorem doRepair_existing_entry_diverges (srv : BlockServer) (cms : Nat)
    (st : RepairerState) (c : BlkID) (blk : Blk) (e : Nat)
    (hget : srv.getBlk c = .ok blk)
    (hentry : readStore st.store (.entryK blk.height) = .ok e) :
    ∀ fuel, doRepair srv cms fuel st c = none := by
  intro fuel
  induction fuel with
  | zero => rfl
  | succ n ih => simp [doRepair, hget, hentry, ih]

/-- Closed instance of the C3 divergence theorem: a three-step run on a chain
whose cursor block height is already indexed makes no progress. -/
theorem doRepair_existing_entry_diverges_instance :
    doRepair ⟨9, fun b => if b = 7 then GetBlkRes.ok ⟨7, 5, 3⟩ else .notFound⟩ 1048576 3
        ⟨fun k => if k = HKey.entryK 5 then some 99 else none, [], false⟩ 7 = none :=
  doRepair_existing_entry_diverges
    ⟨9, fun b => if b = 7 then GetBlkRes.ok ⟨7, 5, 3⟩ else .notFound⟩ 1048576
    ⟨fun k => if k = HKey.entryK 5 then some 99 else none, [], false⟩ 7 ⟨7, 5, 3⟩ 99
    rfl rfl 3

/-- The quota invariant is preserved by every completed queue operation. -/
theorem tqStep_inv {s : TQState} (hs : tqInv s) (op : TQOp) : tqInv (tqStep s op) := by
  obtain ⟨h1, h2⟩ := hs
  cases op with
  | push m adm =>
    cases adm with
    | false => exact ⟨by simpa [tqStep, tqPush] using h1, by simpa [tqStep, tqPush] using h2⟩
    | true =>
      cases hc : s.closed with
      | true =>
        refine ⟨?_, ?_⟩ <;> simp [tqStep, tqPush, hc]
        · simpa [h2 hc] using h1
        · exact h2 hc
      | false =>
        refine ⟨?_, ?_⟩ <;> simp [tqStep, tqPush, hc]
        omega
  | pop =>
    cases hc : s.closed with
    | true => exact ⟨by simpa [tqStep, tqPop, hc] using h1, by simpa [tqStep, tqPop, hc] using h2⟩
    | false =>
      cases hq : s.queue with
      | nil => exact ⟨by simpa [tqStep, tqPop, hc, hq] using h1, by simp [tqStep, tqPop, hc, hq]⟩
      | cons m rest =>
        refine ⟨?_, ?_⟩ <;> simp [tqStep, tqPop, hc, hq]
        rw [hq] at h1
        simp at h1
        omega
  | popNoBlock =>
    cases hq : s.queue with
    | nil => exact ⟨by simpa [tqStep, tqPopNoBlock, hq] using h1, by simp [tqStep, tqPopNoBlock, hq, h2]⟩
    | cons m rest =>
      refine ⟨?_, ?_⟩
      · rw [hq] at h1; simp at h1
        simp [tqStep, tqPopNoBlock, hq]
        omega
      · intro hcl
        simp [tqStep, tqPopNoBlock, hq] at hcl ⊢
        have := h2 (by simpa [tqStep, tqPopNoBlock, hq] using hcl)
        rw [hq] at this
        exact absurd this (by simp)
  | close =>
    refine ⟨?_, ?_⟩ <;> simp [tqStep, tqClose]
    omega

/-- Once closed, a queue stays closed under every operation. -/
theorem tqStep_closed {s : TQState} (hs : s.closed = true) (op : TQOp) :
    (tqStep s op).closed = true := by
  cases op with
  | push m adm => cases adm <;> simp [tqStep, tqPush, hs]
  | pop => simp [tqStep, tqPop, hs]
  | popNoBlock => cases hq : s.queue <;> simp [tqStep, tqPopNoBlock, hq, hs]
  | close => simp [tqStep, tqClose]

/-- Running a trace preserves the quota invariant. -/
theorem tqRun_inv {s : TQState} (hs : tqInv s) (ops : List TQOp) : tqInv (tqRun s ops) := by
  induction ops generalizing s with
  | nil => exact hs
  | cons op rest ih => exact ih (tqStep_inv hs op)

/-- Running a trace preserves closedness. -/
theorem tqRun_closed {s : TQState} (hs : s.closed = true) (ops : List TQOp) :
    (tqRun s ops).closed = true := by
  induction ops generalizing s with
  | nil => exact hs
  | cons op rest ih => exact ih (tqStep_closed hs op)

/-- Traces compose. -/
theorem tqRun_append (s : TQState) (l1 l2 : List TQOp) :
    tqRun s (l1 ++ l2) = tqRun (tqRun s l1) l2 := by
  induction l1 generalizing s with
  | nil => rfl
  | cons op rest ih => simp [tqRun, ih]

/-- C5: quota symmetry of the throttled queue.  Over any finite lifecycle
containing the Close call, the number of successful throttler Acquire calls
equals the number of Release calls: each admitted message is released exactly
once, by the dequeue returning it, by the closed-queue branch of Push, or by
Close releasing the queued remainder. -/
theorem throttled_queue_quota_symmetry (ops : List TQOp) (hmem : TQOp.close ∈ ops) :
    (tqRun tqInit ops).acquired = (tqRun tqInit ops).released := by
  obtain ⟨l1, l2, rfl⟩ := List.append_of_mem hmem
  rw [tqRun_append]
  have hinv1 : tqInv (tqRun tqInit l1) :=
    tqRun_inv (by simp [tqInv, tqInit]) l1
  have hstep : tqRun (tqRun tqInit l1) (TQOp.close :: l2)
      = tqRun (tqStep (tqRun tqInit l1) .close) l2 := rfl
  rw [hstep]
  have hclosed : (tqStep (tqRun tqInit l1) .close).closed = true := by
    simp [tqStep, tqClose]
  have hinv2 : tqInv (tqStep (tqRun tqInit l1) .close) := tqStep_inv hinv1 .close
  obtain ⟨h1, h2⟩ := tqRun_inv hinv2 l2
  rw [h2 (tqRun_closed hclosed l2)] at h1
  simpa using h1

/-- Closed instance of the C5 theorem: push three admitted messages, then
Close. -/
theorem throttled_queue_quota_symmetry_instance :
    (tqRun tqInit [TQOp.push 1 true, TQOp.push 2 true, TQOp.push 3 true, TQOp.close]).acquired
      = (tqRun tqInit [TQOp.push 1 true, TQOp.push 2 true, TQOp.push 3 true,
          TQOp.close]).released :=
  throttled_queue_quota_symmetry _ (by decide)
